import Mathlib

/-!
Verification of the Strands game engine specification.

The repository ships abstract base classes (`base.py`), a hard-coded stub
implementation (`stubs.py`), a UI, and tests for a `fakes.py` game-logic module
that is not part of the snapshot.  Definitions below marked
`Modelled from the spec:` embed the missing engine components from the
specification's words; the remaining definitions embed `stubs.py` and
`base.py` directly.
-/

set_option maxHeartbeats 1000000
set_option maxRecDepth 4096

/-- Modelled from the spec: the eight neighboring directions (`Step` in `base.py`). -/
inductive Step where
  | W | N | E | S | NW | NE | SE | SW
deriving DecidableEq, Repr

/-- Modelled from the spec: each step maps to a fixed (Δrow, Δcol) in
\x7b-1,0,1\x7d² excluding (0,0). -/
def stepDelta : Step → Int × Int
  | .N => (-1, 0)
  | .S => (1, 0)
  | .E => (0, 1)
  | .W => (0, -1)
  | .NW => (-1, -1)
  | .NE => (-1, 1)
  | .SE => (1, 1)
  | .SW => (1, -1)

/-- Modelled from the spec: a board position, a pair of signed, unbounded
integers (row, col); the real `Pos` lives in the missing `fakes.py`. -/
structure Pos where
  r : Int
  c : Int
deriving DecidableEq, Repr

/-- Modelled from the spec: `take_step(pos, step)` adds the step's delta to
the position; total, never fails (missing from `fakes.py`). -/
def take_step (p : Pos) (s : Step) : Pos :=
  ⟨p.r + (stepDelta s).1, p.c + (stepDelta s).2⟩

/-- Modelled from the spec: `step_to(a, b)` returns the unique step whose
delta equals `b - a`, and fails (ValueError / NotAdjacent) when the two
positions are not exactly one king-move apart (missing from `fakes.py`). -/
def step_to (a b : Pos) : Except String Step :=
  let dr := b.r - a.r
  let dc := b.c - a.c
  if dr = -1 ∧ dc = 0 then .ok .N
  else if dr = 1 ∧ dc = 0 then .ok .S
  else if dr = 0 ∧ dc = 1 then .ok .E
  else if dr = 0 ∧ dc = -1 then .ok .W
  else if dr = -1 ∧ dc = -1 then .ok .NW
  else if dr = -1 ∧ dc = 1 then .ok .NE
  else if dr = 1 ∧ dc = 1 then .ok .SE
  else if dr = 1 ∧ dc = -1 then .ok .SW
  else .error "NotAdjacent"

/-- Modelled from the spec: a strand is a start position plus an ordered
sequence of steps (missing from `fakes.py`; `base.py` only declares it). -/
structure Strand where
  start : Pos
  steps : List Step
deriving DecidableEq, Repr

/-- Modelled from the spec: the list of absolute positions reached from `p`
by successively applying the given steps, `p` included. -/
def posListFrom (p : Pos) : List Step → List Pos
  | [] => [p]
  | st :: rest => p :: posListFrom (take_step p st) rest

/-- Modelled from the spec: `positions()` — start followed by successive
`take_step` applications over `steps` (missing from `fakes.py`). -/
def Strand.positions (s : Strand) : List Pos :=
  posListFrom s.start s.steps

/-- Modelled from the spec: a board, an immutable rectangular grid of single
lowercase letters (the concrete `BoardFake` is missing from `fakes.py`). -/
structure Board where
  letters : List (List Char)
deriving DecidableEq, Repr

/-- Modelled from the spec: number of rows. -/
def num_rows (b : Board) : Nat := b.letters.length

/-- Modelled from the spec: number of columns (all rows have equal length). -/
def num_cols (b : Board) : Nat := (b.letters.headD []).length

/-- Modelled from the spec: whether a position lies within the board extent. -/
def inBounds (b : Board) (p : Pos) : Bool :=
  decide (0 ≤ p.r) && decide (p.r < (num_rows b : Int)) &&
  decide (0 ≤ p.c) && decide (p.c < (num_cols b : Int))

/-- Modelled from the spec: `get_letter(pos)` returns the stored letter and
fails with OutOfBounds (ValueError) when the position is outside
`[0, num_rows)` × `[0, num_cols)`; never wraps or clamps. -/
def get_letter (b : Board) (p : Pos) : Except String Char :=
  if inBounds b p then
    .ok ((b.letters.getD p.r.toNat []).getD p.c.toNat 'a')
  else
    .error "OutOfBounds"

/-- Modelled from the spec: `evaluate_strand` concatenates `get_letter` over
the strand's positions, propagating OutOfBounds. -/
def evaluate_strand (b : Board) (s : Strand) : Except String (List Char) :=
  s.positions.mapM (get_letter b)

/-- Modelled from the spec: structural board validity — at least one row,
all rows of equal positive length, every cell a lowercase alphabetic
character. -/
def boardValidB (b : Board) : Bool :=
  !b.letters.isEmpty &&
  decide (0 < num_cols b) &&
  b.letters.all (fun row => row.length == num_cols b) &&
  b.letters.all (fun row => row.all fun ch => ch.isAlpha && (ch.toLower == ch))

/-- Modelled from the spec: whether two position lists cover the same set of
cells — the engine's "position-set identity" on strands. -/
def posSetEq (a b : List Pos) : Bool :=
  a.all (fun p => b.contains p) && b.all (fun p => a.contains p)

/-- Modelled from the spec: one entry of the found list — the recorded word,
the strand as submitted through the interface, and whether it was a theme
find (as opposed to a dictionary find). -/
structure FoundEntry where
  word : List Char
  strand : Strand
  theme : Bool
deriving DecidableEq, Repr

/-- Modelled from the spec: the game engine's state (the concrete
`StrandsGameFake` is missing from `fakes.py`): theme string, immutable
board and answers, the mutable found list, hint meter, active hint, hint
threshold, and the injected dictionary oracle (a finite word list). -/
structure GameState where
  theme : List Char
  board : Board
  answers : List (List Char × Strand)
  found : List FoundEntry
  hintMeter : Nat
  activeHint : Option (Nat × Bool)
  hintThreshold : Nat
  dict : List (List Char)
deriving DecidableEq, Repr

/-- Modelled from the spec: `found_strands()` — the theme strands submitted
through the interface, in discovery order. -/
def found_strands (g : GameState) : List Strand :=
  (g.found.filter fun e => e.theme).map fun e => e.strand

/-- Modelled from the spec: `game_over()` is true iff
`found_strands().len() == answers().len()`. -/
def game_over (g : GameState) : Bool :=
  (found_strands g).length == g.answers.length

/-- Modelled from the spec: whether an answer strand is already found, by
position-set identity against the found list. -/
def answerFound (found : List FoundEntry) (si : Strand) : Bool :=
  found.any fun e => posSetEq e.strand.positions si.positions

/-- Modelled from the spec: the submission success condition against one
stored answer — the evaluated word or its reverse matches the answer's word,
the position set equals the answer's position set, and the answer is not
already found by position-set identity. -/
def submitCond (found : List FoundEntry) (s : Strand) (w : List Char)
    (wi : List Char) (si : Strand) : Bool :=
  (w == wi || w.reverse == wi) &&
  posSetEq s.positions si.positions &&
  !(answerFound found si)

/-- Modelled from the spec: find the first answer (with its index) whose
submission condition holds. -/
def findAns (found : List FoundEntry) (s : Strand) (w : List Char) :
    Nat → List (List Char × Strand) → Option (Nat × List Char × Strand)
  | _, [] => none
  | i, (wi, si) :: rest =>
      if submitCond found s w wi si then some (i, wi, si)
      else findAns found s w (i + 1) rest

/-- Modelled from the spec: the state update on a successful theme find —
append the submitted strand to the found list; when the found answer is the
current active-hint answer, clear the active hint and advance the hint
meter, otherwise leave the hint state untouched. -/
def submitFoundUpdate (g : GameState) (s : Strand) (wi : List Char) (i : Nat) :
    GameState :=
  match g.activeHint with
  | some (j, _) =>
      if j = i then
        { g with found := g.found ++ [⟨wi, s, true⟩],
                 activeHint := none, hintMeter := g.hintMeter + 1 }
      else { g with found := g.found ++ [⟨wi, s, true⟩] }
  | none => { g with found := g.found ++ [⟨wi, s, true⟩] }

/-- Modelled from the spec: a `submit_strand` outcome — a (word, theme?)
pair on a find, or one of the fixed message strings. -/
inductive SubmitResult where
  | found (w : List Char) (theme : Bool)
  | message (m : String)
deriving DecidableEq, Repr

/-- Modelled from the spec: `submit_strand`.  Evaluate the strand on the
board (propagating OutOfBounds); on a theme match append to the found list
and return `(word, true)`; else `"Too short"` for fewer than four letters;
else `"Already found"` when the word is already among the found results by
letter content; else a dictionary find `(word, false)`; else
`"Not in word list"`. -/
def submit_strand (g : GameState) (s : Strand) :
    Except String (GameState × SubmitResult) :=
  match evaluate_strand g.board s with
  | .error e => .error e
  | .ok w =>
    match findAns g.found s w 0 g.answers with
    | some (i, wi, _) => .ok (submitFoundUpdate g s wi i, .found wi true)
    | none =>
      if w.length < 4 then .ok (g, .message "Too short")
      else if g.found.any fun e => e.word == w then
        .ok (g, .message "Already found")
      else if g.dict.contains w then
        .ok ({ g with found := g.found ++ [⟨w, s, false⟩] }, .found w false)
      else .ok (g, .message "Not in word list")

/-- Modelled from the spec: the smallest index of an answer not yet found. -/
def firstUnfoundAux (found : List FoundEntry) :
    Nat → List (List Char × Strand) → Option Nat
  | _, [] => none
  | i, (_, si) :: rest =>
      if answerFound found si then firstUnfoundAux found (i + 1) rest
      else some i

/-- Modelled from the spec: a `use_hint` outcome — an (index, revealed)
pair, or one of the fixed message strings. -/
inductive HintResult where
  | pair (i : Nat) (b : Bool)
  | message (m : String)
deriving DecidableEq, Repr

/-- Modelled from the spec: `use_hint`.  `"No hint yet"` while the meter is
below the threshold; `"Use your current hint"` when the active hint is
already revealed; reveal an unrevealed active hint; otherwise activate the
first not-yet-found answer as a fresh unrevealed hint, resetting the
meter. -/
def use_hint (g : GameState) : GameState × HintResult :=
  if g.hintMeter < g.hintThreshold then (g, .message "No hint yet")
  else
    match g.activeHint with
    | some (_, true) => (g, .message "Use your current hint")
    | some (i, false) => ({ g with activeHint := some (i, true) }, .pair i true)
    | none =>
      match firstUnfoundAux g.found 0 g.answers with
      | some i =>
          ({ g with activeHint := some (i, false), hintMeter := 0 },
           .pair i false)
      | none => (g, .message "No hint yet")

/-- Modelled from the spec: `active_hint()`. -/
def active_hint (g : GameState) : Option (Nat × Bool) := g.activeHint

/-- Modelled from the spec: the post-state of a submission, unchanged when
the submission fails with an error. -/
def afterSubmit (g : GameState) (s : Strand) : GameState :=
  match submit_strand g s with
  | .ok (g', _) => g'
  | .error _ => g

/-- Modelled from the spec: whitespace characters within a line (lines are
already split on newlines). -/
def isSpaceChar (c : Char) : Bool := c == ' ' || c == '\t' || c == '\r'

/-- Modelled from the spec: a blank line consists only of whitespace. -/
def isBlankLine (l : List Char) : Bool := l.all isSpaceChar

/-- Modelled from the spec: strip leading and trailing whitespace. -/
def trimChars (l : List Char) : List Char :=
  ((l.dropWhile isSpaceChar).reverse.dropWhile isSpaceChar).reverse

/-- Modelled from the spec: one fold step of whitespace tokenization,
carrying the token being built and the finished tokens. -/
def tokStep (c : Char) (acc : List Char × List (List Char)) :
    List Char × List (List Char) :=
  if isSpaceChar c then
    ([], if acc.1.isEmpty then acc.2 else acc.1 :: acc.2)
  else (c :: acc.1, acc.2)

/-- Modelled from the spec: split a line into maximal whitespace-free
tokens; runs of whitespace of any length separate tokens. -/
def tokenize (l : List Char) : List (List Char) :=
  let acc := l.foldr tokStep ([], [])
  if acc.1.isEmpty then acc.2 else acc.1 :: acc.2

/-- Modelled from the spec: parse a token of decimal digits as a number. -/
def parseNatTok (t : List Char) : Option Nat :=
  if !t.isEmpty && t.all Char.isDigit then
    some (t.foldl (fun n c => n * 10 + (c.toNat - 48)) 0)
  else none

/-- Modelled from the spec: parse a case-insensitive step name. -/
def parseStep (t : List Char) : Option Step :=
  match t.map Char.toLower with
  | ['n'] => some .N
  | ['s'] => some .S
  | ['e'] => some .E
  | ['w'] => some .W
  | ['n', 'w'] => some .NW
  | ['n', 'e'] => some .NE
  | ['s', 'e'] => some .SE
  | ['s', 'w'] => some .SW
  | _ => none

/-- Modelled from the spec: parse one board row — each whitespace-separated
token must be a single alphabetic character, stored lowercase. -/
def parseRow (l : List Char) : Option (List Char) :=
  (tokenize l).mapM fun t =>
    match t with
    | [c] => if c.isAlpha then some c.toLower else none
    | _ => none

/-- Modelled from the spec: the final checks on one parsed answer — the
strand's positions must all be in bounds (so evaluation succeeds) and the
evaluated letters must spell the stored word. -/
def parseAnswerCheck (b : Board) (w : List Char) (s : Strand) :
    Option (List Char × Strand) :=
  match evaluate_strand b s with
  | .ok ev => if ev == w then some (w, s) else none
  | .error _ => none

/-- Modelled from the spec: parse one answer line
`WORD R C STEP1 STEP2 ...` — the word is stored lowercase and must have at
least three letters, (R, C) are 1-indexed and converted to 0-indexed, the
strand's positions must all be in bounds, and the evaluated letters must
spell the word. -/
def parseAnswer (b : Board) (l : List Char) : Option (List Char × Strand) :=
  match tokenize l with
  | wtok :: rtok :: ctok :: stoks =>
    if (wtok.map Char.toLower).length < 3 then none
    else
      match parseNatTok rtok, parseNatTok ctok, stoks.mapM parseStep with
      | some r, some c, some steps =>
        parseAnswerCheck b (wtok.map Char.toLower)
          ⟨⟨(r : Int) - 1, (c : Int) - 1⟩, steps⟩
      | _, _, _ => none
  | _ => none

/-- Modelled from the spec: the post-validation that answers fill the board —
every cell is covered by some answer's positions. -/
def coversB (b : Board) (answers : List (List Char × Strand)) : Bool :=
  (List.range (num_rows b)).all fun r =>
    (List.range (num_cols b)).all fun c =>
      answers.any fun a => a.2.positions.contains ⟨(r : Int), (c : Int)⟩

/-- Modelled from the spec: the answers section of the loader — a blank
separator line, then answer lines up to the next blank line (any remaining
lines are ignored); every answer line must parse and the answers must fill
the board. -/
def loadAnswerSection (themeLine : List Char) (b : Board)
    (rest3 : List (List Char)) (ht : Nat) (dict : List (List Char)) :
    Except String GameState :=
  match rest3 with
  | [] => .error "InvalidGame"
  | _ :: rest4 =>
    if (rest4.takeWhile fun l => !isBlankLine l).isEmpty then
      .error "InvalidGame"
    else
      match (rest4.takeWhile fun l => !isBlankLine l).mapM (parseAnswer b) with
      | none => .error "InvalidGame"
      | some answers =>
        if coversB b answers then
          .ok ⟨trimChars themeLine, b, answers, [], 0, none, ht, dict⟩
        else .error "InvalidGame"

/-- Modelled from the spec: the board section of the loader — contiguous
non-blank lines parsed as board rows, which must form a valid board. -/
def loadBoardSection (themeLine : List Char) (rest2 : List (List Char))
    (ht : Nat) (dict : List (List Char)) : Except String GameState :=
  if (rest2.takeWhile fun l => !isBlankLine l).isEmpty then .error "InvalidGame"
  else
    match (rest2.takeWhile fun l => !isBlankLine l).mapM parseRow with
    | none => .error "InvalidGame"
    | some rows =>
      if boardValidB ⟨rows⟩ then
        loadAnswerSection themeLine ⟨rows⟩
          (rest2.dropWhile fun l => !isBlankLine l) ht dict
      else .error "InvalidGame"

/-- Modelled from the spec: the game loader (`StrandsGameFake.__init__` is
missing from `fakes.py`).  Parses the theme line, a blank separator, the
board rows, a blank separator, and the answer lines; lines after a further
blank are ignored.  Fails with InvalidGame (ValueError) on any structural
violation, returning no engine at all; on success returns a fully
initialised fresh engine. -/
def load_game (lines : List (List Char)) (ht : Nat) (dict : List (List Char)) :
    Except String GameState :=
  match lines with
  | [] => .error "InvalidGame"
  | themeLine :: rest =>
    match rest with
    | [] => .error "InvalidGame"
    | sep1 :: rest2 =>
      if isBlankLine sep1 then loadBoardSection themeLine rest2 ht dict
      else .error "InvalidGame"

/-- `StrandStub.positions1` in `stubs.py`: the hard-coded CMSC positions. -/
def positions1 : List Pos := [⟨0, 3⟩, ⟨0, 2⟩, ⟨0, 1⟩, ⟨0, 0⟩]

/-- `StrandStub.positions2` in `stubs.py`: the hard-coded ONE positions. -/
def positions2 : List Pos := [⟨1, 0⟩, ⟨2, 0⟩, ⟨2, 1⟩]

/-- `StrandStub.positions3` in `stubs.py`: the hard-coded FORTY positions. -/
def positions3 : List Pos := [⟨1, 1⟩, ⟨1, 2⟩, ⟨1, 3⟩, ⟨0, 4⟩, ⟨1, 4⟩]

/-- `StrandStub.positions4` in `stubs.py`: the hard-coded TWO positions. -/
def positions4 : List Pos := [⟨2, 4⟩, ⟨2, 3⟩, ⟨2, 2⟩]

/-- `StrandStub.all_positions` in `stubs.py`. -/
def all_positions : List (List Pos) :=
  [positions1, positions2, positions3, positions4]

/-- `StrandStub` in `stubs.py`: start, steps, and the instance's
`strand_id`, the value of the class counter at construction time. -/
structure StrandStub where
  start : Pos
  steps : List Step
  strand_id : Nat
deriving DecidableEq, Repr

/-- `StrandStub.__init__` in `stubs.py`: the class-level counter is passed
explicitly; the i-th object constructed gets `strand_id = i` and the counter
is incremented. -/
def mkStrandStub (counter : Nat) (start : Pos) (steps : List Step) :
    StrandStub × Nat :=
  (⟨start, steps, counter⟩, counter + 1)

/-- `StrandStub.positions` in `stubs.py`:
`StrandStub.all_positions[self.strand_id]`; `none` models the IndexError
raised when `strand_id` is past the end of the hard-coded list. -/
def StrandStub.positions (s : StrandStub) : Option (List Pos) :=
  all_positions[s.strand_id]?

/-- A universe of Python values for the `__eq__` contract of `base.py`:
positions, strands, and values that are neither. -/
inductive PyVal where
  | pos (p : Pos)
  | strnd (s : Strand)
  | num (n : Int)
  | text (t : String)
deriving DecidableEq, Repr

/-- Whether a Python value is a `PosBase` instance. -/
def PyVal.isPos : PyVal → Bool
  | .pos _ => true
  | _ => false

/-- Whether a Python value is a `StrandBase` instance. -/
def PyVal.isStrand : PyVal → Bool
  | .strnd _ => true
  | _ => false

/-- `PosBase.__eq__` in `base.py`: structural comparison of row and column
when the other value is a position, and NotImplementedError (modelled as
`.error ()`) otherwise. -/
def pos_eq (p : Pos) (x : PyVal) : Except Unit Bool :=
  match x with
  | .pos q => .ok (decide (p.r = q.r ∧ p.c = q.c))
  | _ => .error ()

/-- `StrandBase.__eq__` in `base.py`: structural comparison of start and
steps when the other value is a strand, and NotImplementedError (modelled
as `.error ()`) otherwise. -/
def strand_eq (s : Strand) (x : PyVal) : Except Unit Bool :=
  match x with
  | .strnd t =>
      .ok (decide (s.start.r = t.start.r ∧ s.start.c = t.start.c) &&
           decide (s.steps = t.steps))
  | _ => .error ()

/-- The CS-142 board `CSMCT / OFORY / NEOWT`, stored lowercase. -/
def csBoard : Board :=
  ⟨[['c', 's', 'm', 'c', 't'],
    ['o', 'f', 'o', 'r', 'y'],
    ['n', 'e', 'o', 'w', 't']]⟩

/-- The CMSC answer strand: start (0,3), steps W W W. -/
def cmscStrand : Strand := ⟨⟨0, 3⟩, [.W, .W, .W]⟩

/-- The ONE answer strand: start (1,0), steps S E. -/
def oneStrand : Strand := ⟨⟨1, 0⟩, [.S, .E]⟩

/-- The FORTY answer strand: start (1,1), steps E E NE S. -/
def fortyStrand : Strand := ⟨⟨1, 1⟩, [.E, .E, .NE, .S]⟩

/-- The TWO answer strand: start (2,4), steps W W. -/
def twoStrand : Strand := ⟨⟨2, 4⟩, [.W, .W]⟩

/-- The CS-142 answers in file order. -/
def csAnswers : List (List Char × Strand) :=
  [(['c', 'm', 's', 'c'], cmscStrand),
   (['o', 'n', 'e'], oneStrand),
   (['f', 'o', 'r', 't', 'y'], fortyStrand),
   (['t', 'w', 'o'], twoStrand)]

/-- A freshly constructed CS-142 game with hint threshold 0 and an empty
dictionary. -/
def csGame0 : GameState :=
  ⟨"CS 142".toList, csBoard, csAnswers, [], 0, none, 0, []⟩

/-- The lines of a CS-142 game file. -/
def csLines : List (List Char) :=
  ["\"CS 142\"",
   "",
   "C S M C T",
   "O F O R Y",
   "N E O W T",
   "",
   "cmsc 1 4 w w w",
   "one 2 1 s e",
   "forty 2 2 e e ne s",
   "two 3 5 w w",
   "",
   "ignored trailing note"].map String.toList

/-- The engine that loading `csLines` with hint threshold 3 produces. -/
def csLoaded : GameState :=
  ⟨"\"CS 142\"".toList, csBoard, csAnswers, [], 0, none, 3, []⟩

theorem posListFrom_length (steps : List Step) :
    ∀ p : Pos, (posListFrom p steps).length = steps.length + 1 := by
  induction steps with
  | nil => intro p; rfl
  | cons st rest ih => intro p; simp [posListFrom, ih]

theorem posListFrom_head (steps : List Step) (p : Pos) :
    (posListFrom p steps)[0]? = some p := by
  cases steps <;> simp [posListFrom]

theorem posListFrom_cumul (steps : List Step) :
    ∀ (p : Pos) (i : Nat) (q : Pos) (st : Step),
      (posListFrom p steps)[i]? = some q → steps[i]? = some st →
      (posListFrom p steps)[i + 1]? = some (take_step q st) := by
  induction steps with
  | nil =>
    intro p i q st _ h2
    simp at h2
  | cons s0 rest ih =>
    intro p i q st h1 h2
    cases i with
    | zero =>
      simp [posListFrom] at h1 h2
      subst h1; subst h2
      simpa [posListFrom] using posListFrom_head rest (take_step p s0)
    | succ i =>
      simp only [posListFrom, List.getElem?_cons_succ] at h1 h2 ⊢
      exact ih (take_step p s0) i q st h1 h2

/-- C6: for every strand, `positions()` has length `steps.len() + 1`, starts
with the start position, and each next position is the cumulative
application of the corresponding step to the previous one. -/
theorem strand_positions_spec :
    (∀ (start : Pos) (steps : List Step),
       (Strand.positions ⟨start, steps⟩).length = steps.length + 1 ∧
       (Strand.positions ⟨start, steps⟩)[0]? = some start) ∧
    (∀ (start : Pos) (steps : List Step) (i : Nat) (p : Pos) (st : Step),
       (Strand.positions ⟨start, steps⟩)[i]? = some p →
       steps[i]? = some st →
       (Strand.positions ⟨start, steps⟩)[i + 1]? = some (take_step p st)) := by
  constructor
  · intro start steps
    exact ⟨posListFrom_length steps start, posListFrom_head steps start⟩
  · intro start steps i p st h1 h2
    exact posListFrom_cumul steps start i p st h1 h2

/-- Witness for C6 on the FORTY strand. -/
theorem strand_positions_spec_witness :
    (Strand.positions ⟨⟨1, 1⟩, [.E, .E, .NE, .S]⟩).length = 4 + 1 ∧
    (Strand.positions ⟨⟨1, 1⟩, [.E, .E, .NE, .S]⟩)[0]? = some ⟨1, 1⟩ ∧
    (Strand.positions ⟨⟨1, 1⟩, [.E, .E, .NE, .S]⟩)[3]? =
      some (take_step ⟨1, 3⟩ .NE) :=
  ⟨(strand_positions_spec.1 ⟨1, 1⟩ [.E, .E, .NE, .S]).1,
   (strand_positions_spec.1 ⟨1, 1⟩ [.E, .E, .NE, .S]).2,
   strand_positions_spec.2 ⟨1, 1⟩ [.E, .E, .NE, .S] 2 ⟨1, 3⟩ .NE
     (by decide) (by decide)⟩

/-- C8: taking a step and then computing the step between the two positions
is the identity on steps. -/
theorem step_to_take_step (p : Pos) (s : Step) :
    step_to p (take_step p s) = .ok s := by
  cases s <;> simp [take_step, step_to, stepDelta]

theorem getD_of_getElem? {α : Type} (l : List α) (n : Nat) (x d : α)
    (h : l[n]? = some x) : l.getD n d = x := by
  simp [List.getD, h]

/-- C7: `get_letter` fails with OutOfBounds for every position outside
`[0, num_rows)` × `[0, num_cols)` (never wrapping or clamping), and returns
the stored letter for every in-bounds position. -/
theorem get_letter_spec (b : Board) (p : Pos) (_hv : boardValidB b = true) :
    (inBounds b p = false → get_letter b p = .error "OutOfBounds") ∧
    (∀ (row : List Char) (ch : Char), inBounds b p = true →
       b.letters[p.r.toNat]? = some row → row[p.c.toNat]? = some ch →
       get_letter b p = .ok ch) := by
  constructor
  · intro h
    simp [get_letter, h]
  · intro row ch hb hrow hch
    simp only [get_letter, hb, if_true]
    rw [getD_of_getElem? _ _ _ _ hrow, getD_of_getElem? _ _ _ _ hch]

/-- Witness for C7 on the CS-142 board: an in-bounds lookup returns the
stored letter, and out-of-bounds lookups (including ones a Python negative
index would silently wrap) fail. -/
theorem get_letter_spec_witness :
    get_letter csBoard ⟨0, 4⟩ = .ok 't' ∧
    get_letter csBoard ⟨3, 0⟩ = .error "OutOfBounds" ∧
    get_letter csBoard ⟨-1, 0⟩ = .error "OutOfBounds" :=
  ⟨(get_letter_spec csBoard ⟨0, 4⟩ (by decide)).2 ['c', 's', 'm', 'c', 't'] 't'
     (by decide) (by decide) (by decide),
   (get_letter_spec csBoard ⟨3, 0⟩ (by decide)).1 (by decide),
   (get_letter_spec csBoard ⟨-1, 0⟩ (by decide)).1 (by decide)⟩

/-- C9: `StrandStub.positions()` is not a function of the strand's start and
steps — the i-th constructed instance (i < 4) returns the i-th hard-coded
list whatever its constructor arguments, two instances constructed with
identical arguments can return different lists, and from the fifth instance
on `positions()` raises IndexError (modelled as `none`). -/
theorem stub_positions_spec :
    (∀ (c : Nat) (p : Pos) (l : List Step), c < 4 →
       (mkStrandStub c p l).1.positions = some (all_positions.getD c [])) ∧
    (∀ (c : Nat) (p p2 : Pos) (l l2 : List Step),
       (mkStrandStub c p l).1.positions = (mkStrandStub c p2 l2).1.positions) ∧
    ((mkStrandStub 0 ⟨0, 0⟩ []).1.positions ≠
       (mkStrandStub (mkStrandStub 0 ⟨0, 0⟩ []).2 ⟨0, 0⟩ []).1.positions) ∧
    (∀ (c : Nat) (p : Pos) (l : List Step), 4 ≤ c →
       (mkStrandStub c p l).1.positions = none) := by
  refine ⟨?_, ?_, ?_, ?_⟩
  · intro c p l hc
    interval_cases c <;> rfl
  · intro c p p2 l l2
    rfl
  · decide
  · intro c p l hc
    simp only [mkStrandStub, StrandStub.positions]
    apply List.getElem?_eq_none
    simpa [all_positions] using hc

/-- Witness for C9: the third instance returns the third hard-coded list
even when constructed with the CMSC strand's arguments, and the eighth
instance fails. -/
theorem stub_positions_spec_witness :
    (mkStrandStub 2 ⟨0, 3⟩ [.W, .W, .W]).1.positions =
      some (all_positions.getD 2 []) ∧
    (mkStrandStub 7 ⟨0, 3⟩ [.W, .W, .W]).1.positions = none :=
  ⟨stub_positions_spec.1 2 ⟨0, 3⟩ [.W, .W, .W] (by decide),
   stub_positions_spec.2.2.2 7 ⟨0, 3⟩ [.W, .W, .W] (by decide)⟩

/-- C10: comparing a position (or a strand) with a value that is not a
position (or not a strand) raises NotImplementedError instead of returning
false, while equality between two positions (or two strands) is total and
structural. -/
theorem eq_not_implemented_spec :
    (∀ (p : Pos) (x : PyVal), PyVal.isPos x = false → pos_eq p x = .error ()) ∧
    (∀ (p q : Pos), pos_eq p (.pos q) = .ok (decide (p = q))) ∧
    (∀ (s : Strand) (x : PyVal), PyVal.isStrand x = false →
       strand_eq s x = .error ()) ∧
    (∀ (s t : Strand), strand_eq s (.strnd t) = .ok (decide (s = t))) := by
  refine ⟨?_, ?_, ?_, ?_⟩
  · intro p x h
    cases x with
    | pos q => simp [PyVal.isPos] at h
    | strnd _ => rfl
    | num _ => rfl
    | text _ => rfl
  · intro p q
    cases p; cases q
    simp [pos_eq, Pos.mk.injEq]
  · intro s x h
    cases x with
    | strnd t => simp [PyVal.isStrand] at h
    | pos _ => rfl
    | num _ => rfl
    | text _ => rfl
  · intro s t
    obtain ⟨⟨sr, sc⟩, ss⟩ := s
    obtain ⟨⟨tr, tc⟩, ts⟩ := t
    simp [strand_eq, Strand.mk.injEq, Pos.mk.injEq, Bool.and_eq_true,
      decide_eq_true_eq, and_assoc, Bool.and_assoc]

/-- Witness for C10: comparing a position with an integer and a strand with
a string raise; comparing equal positions and equal strands returns true. -/
theorem eq_not_implemented_spec_witness :
    pos_eq ⟨1, 2⟩ (.num 5) = .error () ∧
    pos_eq ⟨1, 2⟩ (.pos ⟨1, 2⟩) = .ok true ∧
    strand_eq cmscStrand (.text "cmsc") = .error () ∧
    strand_eq cmscStrand (.strnd cmscStrand) = .ok true :=
  ⟨eq_not_implemented_spec.1 ⟨1, 2⟩ (.num 5) (by decide),
   by simpa using eq_not_implemented_spec.2.1 ⟨1, 2⟩ ⟨1, 2⟩,
   eq_not_implemented_spec.2.2.1 cmscStrand (.text "cmsc") (by decide),
   by simpa using eq_not_implemented_spec.2.2.2 cmscStrand cmscStrand⟩

theorem findAns_first (found : List FoundEntry) (s : Strand) (w : List Char) :
    ∀ (l : List (List Char × Strand)) (i : Nat) (wi : List Char) (si : Strand)
      (b : Nat),
      l[i]? = some (wi, si) →
      submitCond found s w wi si = true →
      (∀ (k : Nat) (wk : List Char) (sk : Strand), k < i →
         l[k]? = some (wk, sk) → submitCond found s w wk sk = false) →
      findAns found s w b l = some (b + i, wi, si) := by
  intro l
  induction l with
  | nil =>
    intro i wi si b h1 _ _
    simp at h1
  | cons hd rest ih =>
    intro i wi si b h1 h2 hmin
    obtain ⟨w0, s0⟩ := hd
    cases i with
    | zero =>
      simp only [List.getElem?_cons_zero, Option.some.injEq, Prod.mk.injEq]
        at h1
      obtain ⟨e1, e2⟩ := h1
      subst e1; subst e2
      simp [findAns, h2]
    | succ i =>
      have h0 : submitCond found s w w0 s0 = false :=
        hmin 0 w0 s0 (Nat.succ_pos i) (by simp)
      have hrec := ih i wi si (b + 1) (by simpa using h1) h2
        (fun k wk sk hk hkk =>
          hmin (k + 1) wk sk (by omega) (by simpa using hkk))
      have harith : b + 1 + i = b + (i + 1) := by omega
      simp only [findAns, h0, Bool.false_eq_true, if_false]
      rw [hrec, harith]

theorem findAns_sound (found : List FoundEntry) (s : Strand) (w : List Char) :
    ∀ (l : List (List Char × Strand)) (b i : Nat) (wi : List Char)
      (si : Strand),
      findAns found s w b l = some (i, wi, si) →
      submitCond found s w wi si = true := by
  intro l
  induction l with
  | nil =>
    intro b i wi si h
    simp [findAns] at h
  | cons hd rest ih =>
    intro b i wi si h
    obtain ⟨w0, s0⟩ := hd
    by_cases h0 : submitCond found s w w0 s0 = true
    · simp only [findAns, h0, if_true, Option.some.injEq, Prod.mk.injEq] at h
      obtain ⟨_, e1, e2⟩ := h
      subst e1; subst e2
      exact h0
    · simp only [findAns, h0, if_false] at h
      exact ih (b + 1) i wi si h

theorem findAns_none (found : List FoundEntry) (s : Strand) (w : List Char) :
    ∀ (l : List (List Char × Strand)) (b : Nat),
      (∀ (wk : List Char) (sk : Strand), (wk, sk) ∈ l →
         submitCond found s w wk sk = false) →
      findAns found s w b l = none := by
  intro l
  induction l with
  | nil => intro b _; rfl
  | cons hd rest ih =>
    intro b hall
    obtain ⟨w0, s0⟩ := hd
    have h0 : submitCond found s w w0 s0 = false := hall w0 s0 (by simp)
    simp only [findAns, h0, Bool.false_eq_true, if_false]
    exact ih (b + 1) (fun wk sk hk => hall wk sk (List.mem_cons_of_mem _ hk))

theorem submitFoundUpdate_fields (g : GameState) (s : Strand) (wi : List Char)
    (i : Nat) :
    (submitFoundUpdate g s wi i).found = g.found ++ [⟨wi, s, true⟩] ∧
    (submitFoundUpdate g s wi i).board = g.board ∧
    (submitFoundUpdate g s wi i).answers = g.answers ∧
    (submitFoundUpdate g s wi i).dict = g.dict := by
  unfold submitFoundUpdate
  match h : g.activeHint with
  | none => simp
  | some (j, bb) =>
    by_cases hj : j = i <;> simp [hj]

/-- C1: when a submitted strand's evaluated word (or its reverse) matches a
not-yet-found answer's word, its position set equals that answer's position
set, and no earlier answer also matches, `submit_strand` appends the
submitted strand to the found list and returns that answer's word paired
with `true`. -/
theorem submit_matching_strand_found (g : GameState) (s : Strand)
    (w : List Char) (i : Nat) (wi : List Char) (si : Strand)
    (hev : evaluate_strand g.board s = .ok w)
    (hans : g.answers[i]? = some (wi, si))
    (hw : w = wi ∨ w.reverse = wi)
    (hps : posSetEq s.positions si.positions = true)
    (hnf : answerFound g.found si = false)
    (hmin : ∀ (k : Nat) (wk : List Char) (sk : Strand), k < i →
       g.answers[k]? = some (wk, sk) → submitCond g.found s w wk sk = false) :
    submit_strand g s = .ok (submitFoundUpdate g s wi i, .found wi true) ∧
    (submitFoundUpdate g s wi i).found = g.found ++ [⟨wi, s, true⟩] ∧
    found_strands (submitFoundUpdate g s wi i) = found_strands g ++ [s] := by
  have hcond : submitCond g.found s w wi si = true := by
    simp only [submitCond, hps, hnf, Bool.not_false, Bool.and_true,
      Bool.or_eq_true, beq_iff_eq]
    rcases hw with h | h
    · exact Or.inl h
    · exact Or.inr h
  have hfind : findAns g.found s w 0 g.answers = some (i, wi, si) := by
    simpa using findAns_first g.found s w g.answers i wi si 0 hans hcond hmin
  refine ⟨?_, (submitFoundUpdate_fields g s wi i).1, ?_⟩
  · simp only [submit_strand, hev, hfind]
  · simp [found_strands, (submitFoundUpdate_fields g s wi i).1,
      List.filter_append, List.map_append]

/-- Witness for C1: submitting the CMSC strand to the fresh CS-142 game. -/
theorem submit_matching_strand_found_witness :
    submit_strand csGame0 cmscStrand =
      .ok (submitFoundUpdate csGame0 cmscStrand ['c', 'm', 's', 'c'] 0,
           .found ['c', 'm', 's', 'c'] true) ∧
    (submitFoundUpdate csGame0 cmscStrand ['c', 'm', 's', 'c'] 0).found =
      csGame0.found ++ [⟨['c', 'm', 's', 'c'], cmscStrand, true⟩] ∧
    found_strands (submitFoundUpdate csGame0 cmscStrand ['c', 'm', 's', 'c'] 0) =
      found_strands csGame0 ++ [cmscStrand] :=
  submit_matching_strand_found csGame0 cmscStrand ['c', 'm', 's', 'c'] 0
    ['c', 'm', 's', 'c'] cmscStrand rfl (by decide) (Or.inl rfl) (by decide)
    (by decide) (fun k wk sk hk _ => absurd hk (Nat.not_lt_zero k))

/-- C2: `game_over()` returns true exactly when the number of found strands
equals the number of answers; in particular it returns true after all four
CS-142 answers have been submitted. -/
theorem game_over_iff_all_found :
    (∀ g : GameState,
       game_over g = true ↔ (found_strands g).length = g.answers.length) ∧
    game_over (afterSubmit (afterSubmit (afterSubmit
      (afterSubmit csGame0 cmscStrand) oneStrand) fortyStrand) twoStrand) =
      true := by
  constructor
  · intro g
    simp [game_over]
  · rfl

/-- C3: in a fresh game with hint threshold 0 and nothing found, the first
`use_hint()` returns (0, false), the second (0, true), the third the string
"Use your current hint", and after answer 0's strand is found by
`submit_strand` the active hint is cleared to `None`. -/
theorem hint_scenario :
    csGame0.hintThreshold = 0 ∧ csGame0.found = [] ∧
    (use_hint csGame0).2 = .pair 0 false ∧
    (use_hint (use_hint csGame0).1).2 = .pair 0 true ∧
    (use_hint (use_hint (use_hint csGame0).1).1).2 =
      .message "Use your current hint" ∧
    submit_strand (use_hint (use_hint (use_hint csGame0).1).1).1 cmscStrand =
      .ok (afterSubmit (use_hint (use_hint (use_hint csGame0).1).1).1
             cmscStrand,
           .found ['c', 'm', 's', 'c'] true) ∧
    active_hint (afterSubmit (use_hint (use_hint (use_hint csGame0).1).1).1
      cmscStrand) = none := by
  exact ⟨rfl, rfl, rfl, rfl, rfl, rfl, rfl⟩

/-- Counterexample to C4 as stated: the ONE strand matches answer "one"
(first submission returns ("one", true)), but resubmitting it returns
"Too short" — not "Already found" — because the word-length check precedes
the already-found-by-content check and "one" has only three letters. -/
theorem submit_twice_short_counterexample :
    submit_strand csGame0 oneStrand =
      .ok (afterSubmit csGame0 oneStrand, .found ['o', 'n', 'e'] true) ∧
    submit_strand (afterSubmit csGame0 oneStrand) oneStrand =
      .ok (afterSubmit csGame0 oneStrand, .message "Too short") := by
  exact ⟨rfl, rfl⟩

/-- C4 (amended): for every game state and every strand whose submission is
a theme find of a word of at least four letters spelled in the strand's own
direction, submitting the same strand again returns "Already found" and
leaves the state — in particular `found_strands()` — unchanged. -/
theorem submit_twice_already_found (g : GameState) (s : Strand)
    (g1 : GameState) (w : List Char)
    (hsub : submit_strand g s = .ok (g1, .found w true))
    (hev : evaluate_strand g.board s = .ok w)
    (hlen : 4 ≤ w.length) :
    submit_strand g1 s = .ok (g1, .message "Already found") ∧
    found_strands (afterSubmit g1 s) = found_strands g1 := by
  simp only [submit_strand, hev] at hsub
  cases hfa : findAns g.found s w 0 g.answers with
  | none =>
    rw [hfa] at hsub
    split_ifs at hsub <;> simp at hsub
  | some res =>
    obtain ⟨i, wi, si⟩ := res
    rw [hfa] at hsub
    simp only [Except.ok.injEq, Prod.mk.injEq, SubmitResult.found.injEq]
      at hsub
    obtain ⟨hg1, hwi, -⟩ := hsub
    subst hwi
    subst hg1
    obtain ⟨hfound, hboard, hans, hdict⟩ := submitFoundUpdate_fields g s wi i
    have hev2 : evaluate_strand (submitFoundUpdate g s wi i).board s =
        .ok wi := by rw [hboard]; exact hev
    have hnone : findAns (submitFoundUpdate g s wi i).found s wi 0
        (submitFoundUpdate g s wi i).answers = none := by
      apply findAns_none
      intro wk sk _
      by_cases hp : posSetEq s.positions sk.positions = true
      · have hfd : answerFound (submitFoundUpdate g s wi i).found sk = true :=
          by
          rw [hfound]
          simp only [answerFound, List.any_append, List.any_cons, List.any_nil,
            Bool.or_false, Bool.or_eq_true]
          exact Or.inr hp
        simp [submitCond, hfd]
      · rw [Bool.not_eq_true] at hp
        simp [submitCond, hp]
    have hlen2 : ¬(wi.length < 4) := by omega
    have hword : ((submitFoundUpdate g s wi i).found.any
        fun e => e.word == wi) = true := by
      rw [hfound]
      simp [List.any_append]
    have hmain : submit_strand (submitFoundUpdate g s wi i) s =
        .ok (submitFoundUpdate g s wi i, .message "Already found") := by
      simp only [submit_strand, hev2, hnone]
      rw [if_neg hlen2, if_pos hword]
    exact ⟨hmain, by simp [afterSubmit, hmain]⟩

/-- Witness for C4 on the FORTY strand of the CS-142 game. -/
theorem submit_twice_already_found_witness :
    submit_strand (afterSubmit csGame0 fortyStrand) fortyStrand =
      .ok (afterSubmit csGame0 fortyStrand, .message "Already found") ∧
    found_strands (afterSubmit (afterSubmit csGame0 fortyStrand) fortyStrand) =
      found_strands (afterSubmit csGame0 fortyStrand) :=
  submit_twice_already_found csGame0 fortyStrand
    (afterSubmit csGame0 fortyStrand) ['f', 'o', 'r', 't', 'y'] rfl rfl
    (by decide)


theorem parseAnswerCheck_ok (b : Board) (w : List Char) (s : Strand)
    (a : List Char × Strand) (h : parseAnswerCheck b w s = some a) :
    a = (w, s) ∧ evaluate_strand b s = .ok w := by
  unfold parseAnswerCheck at h
  split at h
  next ev hev =>
    split at h
    next hbeq =>
      simp only [Option.some.injEq] at h
      have hew : ev = w := by simpa using hbeq
      subst hew
      exact ⟨h.symm, hev⟩
    next => exact Option.noConfusion h
  next => exact Option.noConfusion h

theorem parseAnswer_ok (b : Board) (l : List Char) (a : List Char × Strand)
    (h : parseAnswer b l = some a) :
    3 ≤ a.1.length ∧ evaluate_strand b a.2 = .ok a.1 := by
  unfold parseAnswer at h
  split at h
  next wtok rtok ctok stoks _ =>
    split at h
    next => exact Option.noConfusion h
    next hshort =>
      split at h
      next r c steps _ _ _ =>
        obtain ⟨ha, hev⟩ := parseAnswerCheck_ok b (wtok.map Char.toLower)
          ⟨⟨(r : Int) - 1, (c : Int) - 1⟩, steps⟩ a h
        subst ha
        exact ⟨Nat.le_of_not_lt hshort, hev⟩
      next => exact Option.noConfusion h
  next => exact Option.noConfusion h

theorem mapM_option_forall {α β : Type} (f : α → Option β) (P : β → Prop)
    (hf : ∀ a b, f a = some b → P b) :
    ∀ (l : List α) (l' : List β), l.mapM f = some l' → ∀ b ∈ l', P b := by
  intro l
  induction l with
  | nil =>
    intro l' h b hb
    simp only [List.mapM_nil, Option.pure_def, Option.some.injEq] at h
    subst h
    simp at hb
  | cons a rest ih =>
    intro l' h b hb
    simp only [List.mapM_cons, Option.pure_def, Option.bind_eq_bind,
      Option.bind_eq_some, Option.some.injEq] at h
    obtain ⟨x, hfa, xs, hxs, hcons⟩ := h
    subst hcons
    rcases List.mem_cons.mp hb with hbx | hbs
    · subst hbx
      exact hf a b hfa
    · exact ih xs hxs b hbs

theorem loadAnswerSection_ok (themeLine : List Char) (b : Board)
    (rest3 : List (List Char)) (ht : Nat) (dict : List (List Char))
    (g : GameState) (h : loadAnswerSection themeLine b rest3 ht dict = .ok g) :
    g.board = b ∧
    (∀ a ∈ g.answers, 3 ≤ a.1.length ∧ evaluate_strand g.board a.2 = .ok a.1) ∧
    coversB g.board g.answers = true ∧
    g.found = [] ∧ g.hintMeter = 0 ∧ g.activeHint = none ∧
    g.hintThreshold = ht ∧ g.dict = dict := by
  unfold loadAnswerSection at h
  split at h
  next => exact Except.noConfusion h
  next rest4 =>
    split at h
    next => exact Except.noConfusion h
    next =>
      split at h
      next => exact Except.noConfusion h
      next answers hmap =>
        split at h
        next hcov =>
          simp only [Except.ok.injEq] at h
          subst h
          refine ⟨rfl, ?_, hcov, rfl, rfl, rfl, rfl, rfl⟩
          exact mapM_option_forall (parseAnswer b) _
            (fun l a hl => parseAnswer_ok b l a hl) _ answers hmap
        next => exact Except.noConfusion h

theorem loadBoardSection_ok (themeLine : List Char)
    (rest2 : List (List Char)) (ht : Nat) (dict : List (List Char))
    (g : GameState) (h : loadBoardSection themeLine rest2 ht dict = .ok g) :
    boardValidB g.board = true ∧
    (∀ a ∈ g.answers, 3 ≤ a.1.length ∧ evaluate_strand g.board a.2 = .ok a.1) ∧
    coversB g.board g.answers = true ∧
    g.found = [] ∧ g.hintMeter = 0 ∧ g.activeHint = none ∧
    g.hintThreshold = ht ∧ g.dict = dict := by
  unfold loadBoardSection at h
  split at h
  next => exact Except.noConfusion h
  next =>
    split at h
    next => exact Except.noConfusion h
    next rows hmap =>
      split at h
      next hvalid =>
        have hrest := loadAnswerSection_ok themeLine ⟨rows⟩
          (rest2.dropWhile fun l => !isBlankLine l) ht dict g h
        refine ⟨?_, hrest.2.1, hrest.2.2.1, hrest.2.2.2⟩
        rw [hrest.1]
        exact hvalid
      next => exact Except.noConfusion h

/-- C5: loading succeeds only on fully valid game files — whenever the
loader returns an engine, its board is rectangular with lowercase
alphabetic cells, every answer has at least three letters and its strand
stays in bounds and spells its word, the answers cover the whole board, and
the engine's play state is freshly initialised; on any violation the loader
returns only an error value, so no partially initialised engine exists. -/
theorem load_game_ok_valid (lines : List (List Char)) (ht : Nat)
    (dict : List (List Char)) (g : GameState)
    (h : load_game lines ht dict = .ok g) :
    boardValidB g.board = true ∧
    (∀ a ∈ g.answers, 3 ≤ a.1.length ∧ evaluate_strand g.board a.2 = .ok a.1) ∧
    coversB g.board g.answers = true ∧
    g.found = [] ∧ g.hintMeter = 0 ∧ g.activeHint = none ∧
    g.hintThreshold = ht ∧ g.dict = dict := by
  unfold load_game at h
  split at h
  next => exact Except.noConfusion h
  next themeLine rest =>
    split at h
    next => exact Except.noConfusion h
    next sep1 rest2 =>
      split at h
      next => exact loadBoardSection_ok themeLine rest2 ht dict g h
      next => exact Except.noConfusion h

/-- Witness for C5: loading the concrete CS-142 game file succeeds and the
loaded engine satisfies all the validity properties. -/
theorem load_game_ok_valid_witness :
    load_game csLines 3 [] = .ok csLoaded ∧
    boardValidB csLoaded.board = true ∧
    coversB csLoaded.board csLoaded.answers = true ∧
    csLoaded.found = [] ∧ csLoaded.hintMeter = 0 ∧
    csLoaded.activeHint = none :=
  ⟨rfl,
   (load_game_ok_valid csLines 3 [] csLoaded rfl).1,
   (load_game_ok_valid csLines 3 [] csLoaded rfl).2.2.1,
   (load_game_ok_valid csLines 3 [] csLoaded rfl).2.2.2.1,
   (load_game_ok_valid csLines 3 [] csLoaded rfl).2.2.2.2.1,
   (load_game_ok_valid csLines 3 [] csLoaded rfl).2.2.2.2.2.1⟩
